import Mathlib

/-!
Shallow embedding of the command-resolution-and-execution engine of
`fireworks/user_objects/firetasks/dataflow_tasks.py` (class `CommandLineTask`):
the binding resolver (`run_task`, lines 93-125), the environment prefix
expansion (lines 180-221), the argument builder, process executor and output
harvester (`command_line_tool`, lines 251-380), and the result propagator
(lines 231-249).

Python values are embedded as the inductive `PyVal`; Python dictionaries are
insertion-ordered association lists with first-match lookup and
update-in-place-or-append assignment, which is observationally the behaviour
of `dict` for the operations the code uses.  Fallible Python code (KeyError,
IndexError, TypeError, AssertionError, ValueError, NotImplementedError,
RuntimeError, AttributeError) is embedded in `Except PyErr`.  Operating-system
behaviour (`os.path.abspath`, `os.path.isdir`, `uuid.uuid4`, and the spawned
process's exit code and captured stream contents) is abstracted as an oracle
structure `OSEnv`; file side effects (copies, stream redirections) are logged
explicitly in the returned state.
-/

/-- Embedded Python values.  The schema of the command specification uses
strings, integers, lists and string-keyed dictionaries; `bytes` covers the
byte strings produced by expression evaluation in the environment expander
(carried as their decoded text), and `none` is Python's `None`.  (Floats,
which the schema also admits for `source.value`, are not modelled; no claim
involves them.) -/
inductive PyVal where
  | none
  | str (s : String)
  | int (n : Int)
  | bytes (s : String)
  | list (xs : List PyVal)
  | dict (d : List (String × PyVal))
deriving Repr

/-- A Python dictionary with string keys: insertion-ordered association list. -/
abbrev Dict := List (String × PyVal)

/-- Dictionary lookup, `d[k]` / `d.get(k)`: first matching key. -/
def dlookup : Dict → String → Option PyVal
  | [], _ => Option.none
  | (k, v) :: rest, key => if k = key then some v else dlookup rest key

/-- Dictionary assignment `d[k] = v`: overwrite in place when the key is
present (keeping its position), append otherwise. -/
def dset : Dict → String → PyVal → Dict
  | [], key, v => [(key, v)]
  | (k, w) :: rest, key, v =>
    if k = key then (k, v) :: rest else (k, w) :: dset rest key v

/-- Embedded Python exceptions raised by the engine. -/
inductive PyErr where
  | keyError (k : String)
  | indexError
  | typeError
  | attributeError
  | valueError (msg : String)
  | assertionError (msg : String)
  | notImplementedError
  | runtimeError (stderrText : Option String)
deriving Repr, DecidableEq

/-- Python `v == s` for a string literal `s`: true exactly when `v` is the
same string (values of other types never compare equal to a string). -/
def isStrEq (v : PyVal) (s : String) : Bool :=
  match v with
  | .str t => t = s
  | _ => false

/-- Python `v is None`. -/
def isNoneV (v : PyVal) : Bool :=
  match v with
  | .none => true
  | _ => false

/-- Python `str(v)` for the value kinds the schema admits for `source.value`
(`str`, `int`; `None` renders as `"None"`).  The remaining constructors are
rendered by a placeholder; they are outside the documented schema
(`dataflow_tasks.py` lines 50, 62-63) and no claim exercises them. -/
def pyStr : PyVal → String
  | .str s => s
  | .int n => toString n
  | .none => "None"
  | .bytes s => s
  | .list _ => "<list>"
  | .dict _ => "<dict>"

/-- Python `k in v` (membership test with a string on the left):
key test for dictionaries, element test for lists (a string compares equal
only to the same string), substring test for strings; `in` on the remaining
kinds raises TypeError. -/
def pyIn (k : String) (v : PyVal) : Except PyErr Bool :=
  match v with
  | .dict d => .ok (dlookup d k).isSome
  | .list xs => .ok (xs.any fun x => isStrEq x k)
  | .str s => .ok (decide (k.toList <:+: s.toList))
  | _ => .error .typeError

/-- Python `v[k]` with a string subscript: dictionary item lookup (KeyError
when absent); subscripting a list or string with a string, or a non-subscriptable
value, raises TypeError. -/
def pyGet (v : PyVal) (k : String) : Except PyErr PyVal :=
  match v with
  | .dict d =>
    match dlookup d k with
    | some x => .ok x
    | Option.none => .error (.keyError k)
  | _ => .error .typeError

/-- Python `len(v)`: length of strings, lists, byte strings and dictionaries;
TypeError otherwise. -/
def pyLen : PyVal → Except PyErr Nat
  | .str s => .ok s.length
  | .bytes s => .ok s.length
  | .list xs => .ok xs.length
  | .dict d => .ok d.length
  | _ => .error .typeError

/-- Python iteration `for x in v`: a dictionary yields its keys in insertion
order, a list its elements, a string its characters; other kinds raise
TypeError. -/
def pyIter : PyVal → Except PyErr (List PyVal)
  | .dict d => .ok (d.map fun kv => .str kv.1)
  | .list xs => .ok xs
  | .str s => .ok (s.toList.map fun c => .str (String.singleton c))
  | _ => .error .typeError

/-- Python's whitespace set for `str.split()` and `str.strip()`. -/
def pyWs (c : Char) : Bool :=
  c = ' ' || c = '\t' || c = '\n' || c = '\r' || c = '\x0b' || c = '\x0c'

/-- Helper for `pySplit`: scan the character list, accumulating the current
token in reverse. -/
def pySplitAux : List Char → List Char → List String
  | [], acc => if acc.isEmpty then [] else [String.mk acc.reverse]
  | c :: rest, acc =>
    if pyWs c then
      if acc.isEmpty then pySplitAux rest []
      else String.mk acc.reverse :: pySplitAux rest []
    else pySplitAux rest (c :: acc)

/-- Python `s.split()` with no separator: split on runs of whitespace,
discarding empty tokens. -/
def pySplit (s : String) : List String :=
  pySplitAux s.toList []

/-- Python `s.strip()`: remove leading and trailing whitespace. -/
def pyStrip (s : String) : String :=
  String.mk (((s.toList.dropWhile pyWs).reverse.dropWhile pyWs).reverse)

/-- Destination of a standard stream of the child process: inherited
(Python `None`), a pipe (`subprocess.PIPE`), or an opened file. -/
inductive StreamDest where
  | inherit
  | pipe
  | file (path : String)
deriving Repr, DecidableEq

/-- The mutable state assembled by `command_line_tool` before spawning the
process: the argument vector (`arglist`, which starts as the `command` list
object itself and is appended to in place), the three stream assignments,
the buffered standard-input payload, and a counter of `uuid.uuid4()` calls
made so far in this invocation. -/
structure CLState where
  arglist : List PyVal
  stdinDest : StreamDest := .inherit
  stdininp : Option String := Option.none
  stdoutDest : StreamDest := .inherit
  stderrDest : StreamDest := .pipe
  uuidCount : Nat := 0
deriving Repr

/-- Oracle for the operating-system-dependent behaviour of one invocation:
path normalization, the directory test, the stream of fresh `uuid.uuid4()`
names (indexed by call order), and the spawned process's exit status and
captured standard-output/standard-error text (the decoded content the pipes
would deliver, were they requested). -/
structure OSEnv where
  abspath : String → String
  isdir : String → Bool
  uuid : Nat → String
  returncode : Int
  stdoutData : String
  stderrData : String

/-- Python `os.path.join(a, b)` for the shapes reachable here (`a` is the
result of `abspath`, `b` a fresh uuid name, never absolute). -/
def pyJoin (a b : String) : String :=
  if a.toList.getLast? = some '/' then a ++ b else a ++ "/" ++ b

/-- `set_binding` (dataflow_tasks.py lines 279-286): render the binding
decoration of an argument: its `prefix`, then its `separator`, each
contributing only when present.  Appending a non-string to the accumulating
text raises TypeError, as Python `str + x` would. -/
def set_binding (arg : PyVal) : Except PyErr String := do
  let hasB ← pyIn "binding" arg
  if hasB then
    let binding ← pyGet arg "binding"
    let hasP ← pyIn "prefix" binding
    let s1 ← if hasP then do
        match (← pyGet binding "prefix") with
        | .str s => pure s
        | _ => Except.error .typeError
      else pure ""
    let hasS ← pyIn "separator" binding
    let s2 ← if hasS then do
        match (← pyGet binding "separator") with
        | .str s => pure s
        | _ => Except.error .typeError
      else pure ""
    pure (s1 ++ s2)
  else
    pure ""

/-- One input argument of `command_line_tool` (lines 296-321): render the
binding, check the source, then either wire standard input (when a `target`
is declared, which must have type `stdin`) or extend the rendered text with
the source value; finally append the rendered text to the argument vector
exactly when it is non-empty. -/
def processInputArg (st : CLState) (arg : PyVal) : Except PyErr CLState := do
  let argstr0 ← set_binding arg
  let hasSource ← pyIn "source" arg
  if !hasSource then
    Except.error (.assertionError "input has no key source")
  else
  let source ← pyGet arg "source"
  let sty ← pyGet source "type"
  let sval ← pyGet source "value"
  if isNoneV sty || isNoneV sval then
    Except.error (.assertionError "source type and value must not be None")
  else
  let hasTarget ← pyIn "target" arg
  let (st1, argstr) ←
    if hasTarget then do
      let target ← pyGet arg "target"
      if isNoneV target then
        Except.error (.assertionError "target is None")
      else
      let tty ← pyGet target "type"
      if !(isStrEq tty "stdin") then
        Except.error (.assertionError "input target type must be stdin")
      else if isStrEq sty "path" then
        match sval with
        | .str p => pure ({ st with stdinDest := .file p }, argstr0)
        | _ => Except.error .typeError
      else if isStrEq sty "data" then
        pure ({ st with stdinDest := .pipe, stdininp := some (pyStr sval) }, argstr0)
      else
        Except.error .notImplementedError
    else
      if isStrEq sty "path" then
        match sval with
        | .str p => pure (st, argstr0 ++ p)
        | _ => Except.error .typeError
      else if isStrEq sty "data" then
        pure (st, argstr0 ++ pyStr sval)
      else
        Except.error .notImplementedError
  pure (if argstr.length > 0
        then { st1 with arglist := st1.arglist ++ [.str argstr] }
        else st1)

/-- The inner loop over one `inp` entry (line 295: a non-list entry is
treated as the one-element list around it); threading state so that the
arguments appended before a failure are retained. -/
def processArgl (st : CLState) : List PyVal → CLState × Option PyErr
  | [] => (st, Option.none)
  | a :: rest =>
    match processInputArg st a with
    | .ok st' => processArgl st' rest
    | .error e => (st, some e)

/-- The input loop of `command_line_tool` (lines 293-321). -/
def processInputs (st : CLState) : List PyVal → CLState × Option PyErr
  | [] => (st, Option.none)
  | inp :: rest =>
    let argl := match inp with
      | .list xs => xs
      | v => [v]
    match processArgl st argl with
    | (st', Option.none) => processInputs st' rest
    | (st', some e) => (st', some e)

/-- One output argument of `command_line_tool` (lines 324-358): when the
output entry is a list, only its first element is inspected (`arg = arg[0]`).
A `path` target is normalized to an absolute path; when that names an
existing directory a fresh uuid name is joined inside it; the target's
`value` field is overwritten in place with the effective path.  A declared
`source` of type `stdout`/`stderr` redirects that stream to the path;
`source.type == path` adds nothing; any other (or absent) source appends the
path to the rendered binding text.  A `data` target pipes standard output.
The rendered text joins the argument vector exactly when non-empty.
Returns the updated state together with the updated output entry (the
in-place mutation of the Python dict). -/
def processOutputArg (os : OSEnv) (st : CLState) (out : PyVal) :
    Except PyErr (CLState × PyVal) := do
  let arg ← match out with
    | .list [] => Except.error .indexError
    | .list (x :: _) => pure x
    | v => pure v
  let argstr0 ← set_binding arg
  let hasTarget ← pyIn "target" arg
  if !hasTarget then
    Except.error (.assertionError "output has no key target")
  else
  let target ← pyGet arg "target"
  if isNoneV target then
    Except.error (.assertionError "target is None")
  else
  let tty ← pyGet target "type"
  let (st1, arg', argstr) ←
    if isStrEq tty "path" then do
      let hasVal ← pyIn "value" target
      if !hasVal then
        Except.error (.assertionError "path target has no value")
      else
      let tval ← pyGet target "value"
      let n ← pyLen tval
      if n = 0 then
        Except.error (.assertionError "path target value is empty")
      else
      let vstr ← match tval with
        | .str s => pure s
        | _ => Except.error .typeError
      let path0 := os.abspath vstr
      let (path, st') :=
        if os.isdir path0
        then (pyJoin path0 (os.uuid st.uuidCount),
              { st with uuidCount := st.uuidCount + 1 })
        else (path0, st)
      let targetD ← match target with
        | .dict d => pure d
        | _ => Except.error .typeError
      let argD ← match arg with
        | .dict d => pure d
        | _ => Except.error .typeError
      let arg1 := PyVal.dict (dset argD "target"
        (.dict (dset targetD "value" (.str path))))
      let hasSource ← pyIn "source" arg1
      if hasSource then do
        let source ← pyGet arg1 "source"
        if isNoneV source then
          Except.error (.assertionError "source is None")
        else
        let hasTy ← pyIn "type" source
        if !hasTy then
          Except.error (.assertionError "source has no key type")
        else
        let sty ← pyGet source "type"
        if isStrEq sty "stdout" then
          pure ({ st' with stdoutDest := .file path }, arg1, argstr0)
        else if isStrEq sty "stderr" then
          pure ({ st' with stderrDest := .file path }, arg1, argstr0)
        else if isStrEq sty "path" then
          pure (st', arg1, argstr0)
        else
          pure (st', arg1, argstr0 ++ path)
      else
        pure (st', arg1, argstr0 ++ path)
    else if isStrEq tty "data" then
      pure ({ st with stdoutDest := .pipe }, arg, argstr0)
    else
      Except.error .notImplementedError
  let st2 := if argstr.length > 0
    then { st1 with arglist := st1.arglist ++ [.str argstr] }
    else st1
  let out' := match out with
    | .list (_ :: rest) => PyVal.list (arg' :: rest)
    | _ => arg'
  pure (st2, out')

/-- The output loop of `command_line_tool` (lines 323-358), threading state
and collecting the (in-place updated) output entries. -/
def processOutputs (os : OSEnv) (st : CLState) :
    List PyVal → CLState × Except PyErr (List PyVal)
  | [] => (st, .ok [])
  | out :: rest =>
    match processOutputArg os st out with
    | .ok (st', out') =>
      match processOutputs os st' rest with
      | (st'', .ok outs) => (st'', .ok (out' :: outs))
      | (st'', .error e) => (st'', .error e)
    | .error e => (st, .error e)

/-- The input phase of `command_line_tool`: start from the `command` list as
the argument vector (the very list object, which the loops extend in place)
and the default stream assignments (`stderr = PIPE`, line 291), then run the
input loop when inputs were given. -/
def inputPhase (command : List PyVal) (inputs : Option (List PyVal)) :
    CLState × Option PyErr :=
  match inputs with
  | some ins => processInputs { arglist := command } ins
  | Option.none => ({ arglist := command }, Option.none)

/-- The pre-execution phase of `command_line_tool` (lines 288-358): the
input phase followed by the output loop when outputs were given. -/
def cltPre (os : OSEnv) (command : List PyVal) (inputs outputs : Option (List PyVal)) :
    CLState × Except PyErr (List PyVal) :=
  match inputPhase command inputs with
  | (st1, some e) => (st1, .error e)
  | (st1, Option.none) =>
    match outputs with
    | some outs => processOutputs os st1 outs
    | Option.none => (st1, .ok [])

/-- `Popen` accepts the argument vector only when every element is a string
(each was either part of `command` or appended as a rendered text). -/
def argvOk (l : List PyVal) : Bool :=
  l.all fun v => match v with
    | .str _ => true
    | _ => false

/-- What `proc.communicate()` returns for one stream: the captured text when
the stream was piped, Python `None` otherwise. -/
def capturedOf (d : StreamDest) (data : String) : Option String :=
  match d with
  | .pipe => some data
  | _ => Option.none

/-- One iteration of the harvest loop (lines 368-378): copy the produced
file when the output's source has type `path`; for a `data` target overwrite
the target's `value` in place with the stripped captured standard output
(`res[0].decode().strip()`; `res[0]` is `None` — AttributeError — when
standard output was not piped); the harvested record is the output's
(updated) `target`.  Returns the copies performed, the record, and the
updated output entry. -/
def harvestOne (r0 : Option String) (output : PyVal) :
    List (String × String) × Except PyErr (PyVal × PyVal) :=
  let copyStep : Except PyErr (List (String × String)) := do
    let hasSrc ← pyIn "source" output
    let srcIsPath ←
      if hasSrc then do
        let source ← pyGet output "source"
        let sty ← pyGet source "type"
        pure (isStrEq sty "path")
      else pure false
    if srcIsPath then do
      let source ← pyGet output "source"
      let sval ← pyGet source "value"
      let target ← pyGet output "target"
      let tval ← pyGet target "value"
      match sval, tval with
      | .str a, .str b => pure [(a, b)]
      | _, _ => Except.error .typeError
    else pure ([] : List (String × String))
  match copyStep with
  | .error e => ([], .error e)
  | .ok copies =>
    let rest : Except PyErr (PyVal × PyVal) := do
      let target ← pyGet output "target"
      let tty ← pyGet target "type"
      if isStrEq tty "data" then
        match r0 with
        | Option.none => Except.error .attributeError
        | some s =>
          let targetD ← match target with
            | .dict d => pure d
            | _ => Except.error .typeError
          let outD ← match output with
            | .dict d => pure d
            | _ => Except.error .typeError
          let target' := PyVal.dict (dset targetD "value" (.str (pyStrip s)))
          pure (target', PyVal.dict (dset outD "target" target'))
      else
        pure (target, output)
    (copies, rest)

/-- The harvest loop (lines 366-378), accumulating copies, the returned
record list and the updated output entries; the copies performed before a
failing iteration are retained. -/
def harvestAll (r0 : Option String) :
    List PyVal → List (String × String) × Except PyErr (List PyVal × List PyVal)
  | [] => ([], .ok ([], []))
  | o :: rest =>
    match harvestOne r0 o with
    | (cs, .ok (rcd, o')) =>
      match harvestAll r0 rest with
      | (cs', .ok (rcds, os')) => (cs ++ cs', .ok (rcd :: rcds, o' :: os'))
      | (cs', .error e) => (cs ++ cs', .error e)
    | (cs, .error e) => (cs, .error e)

/-- `CommandLineTask.command_line_tool` (lines 251-380).  The outcome pairs
the final builder state and the file copies performed with either an error
or the pair of the harvested record list (the function's return value) and
the in-place-updated output entries.  The process itself is the `OSEnv`
oracle: `Popen` requires every argument-vector element to be a string
(TypeError otherwise), the exit status is `os.returncode`, and the piped
streams carry `os.stdoutData` / `os.stderrData`. -/
def command_line_tool (os : OSEnv) (command : List PyVal)
    (inputs outputs : Option (List PyVal)) :
    CLState × List (String × String) × Except PyErr (List PyVal × List PyVal) :=
  match cltPre os command inputs outputs with
  | (st, .error e) => (st, [], .error e)
  | (st, .ok outs') =>
    if argvOk st.arglist then
      let r0 := capturedOf st.stdoutDest os.stdoutData
      let r1 := capturedOf st.stderrDest os.stderrData
      if os.returncode = 0 then
        match harvestAll r0 outs' with
        | (cs, .ok (rcds, outs'')) => (st, cs, .ok (rcds, outs''))
        | (cs, .error e) => (st, cs, .error e)
      else
        (st, [], .error (.runtimeError r1))
    else
      (st, [], .error .typeError)

/-- The action returned to the orchestrator: `update_spec` replaces spec
keys, `mod_spec` is a list of mongo-style operations (here always
single-key `_push` dictionaries). -/
structure FWAction where
  update_spec : Dict := []
  mod_spec : List PyVal := []
deriving Repr

/-- The result propagator of `CommandLineTask.run_task` (lines 231-249):
with a chunk number and more than one output label, iterate each harvested
entry (`for item in out`) and push each yielded item under its label; with a
chunk number and at most one label, push each harvested entry whole under
`olabels[0]`; without a chunk number, zip labels with harvested entries into
`update_spec`; with an empty harvest list, return an empty action. -/
def emitAction (olabels : List String) (outlist : List PyVal)
    (chunk : Option Int) : Except PyErr FWAction :=
  if outlist.length > 0 then
    match chunk with
    | some _ =>
      if olabels.length > 1 then
        if olabels.length = outlist.length then do
          let entries ← (olabels.zip outlist).foldlM
            (fun (acc : List PyVal) (p : String × PyVal) => do
              let items ← pyIter p.2
              pure (acc ++ items.map fun it =>
                PyVal.dict [("_push", .dict [(p.1, it)])]))
            []
          pure { mod_spec := entries }
        else Except.error (.assertionError "len of olabels and outlist differ")
      else
        match olabels with
        | [] => Except.error .indexError
        | l0 :: _ =>
          .ok { mod_spec :=
            outlist.map fun out => PyVal.dict [("_push", .dict [(l0, out)])] }
    | Option.none =>
      .ok { update_spec :=
        (olabels.zip outlist).foldl (fun d p => dset d p.1 p.2) [] }
  else .ok {}

/-- Field resolution of the binding resolver (lines 110-124): a string names
a workflow-spec key whose value is substituted — when that value is a list,
only its first element (IndexError on an empty list, KeyError on a missing
key); a dictionary is used verbatim; any other type raises ValueError. -/
def resolveField (fw_spec : Dict) (item : PyVal) : Except PyErr PyVal :=
  match item with
  | .str s =>
    match dlookup fw_spec s with
    | Option.none => .error (.keyError s)
    | some (.list []) => .error .indexError
    | some (.list (x :: _)) => .ok x
    | some v => .ok v
  | .dict d => .ok (.dict d)
  | _ => .error (.valueError "field is neither str nor dict")

/-- Where the resolved `target` field of an entry lives, as an alias into the
caller's dictionaries: bookkeeping for the in-place mutations that
`command_line_tool` performs on the target of each output (lines 338 and
377), which Python applies through the alias.  `cmdT label` — the target is
the dict literal `cmd_spec[label]['target']`; `specWhole k` — it is the
object `fw_spec[k]`; `specHead k` — it is `fw_spec[k][0]`; `other` — no
aliased target (such entries never survive the harvest of an output). -/
inductive TProv where
  | cmdT (label : String)
  | specWhole (k : String)
  | specHead (k : String)
  | other
deriving Repr, DecidableEq

/-- Alias provenance of a resolved `target` field (same case split as
`resolveField`). -/
def targProvOf (fw_spec : Dict) (label : String) (item : PyVal) : TProv :=
  match item with
  | .str s =>
    match dlookup fw_spec s with
    | some (.list _) => .specHead s
    | _ => .specWhole s
  | .dict _ => .cmdT label
  | _ => .other

/-- Resolution of one labelled entry of the command specification
(lines 98-125).  A string entry names a workflow-spec key whose value is
iterated; each item is taken as is when it contains a `source` key and
wrapped as a one-field `source` dictionary otherwise.  Any other entry is
indexed for the keys `binding`, `source`, `target` in that order, each
present field resolved by `resolveField`.  The provenance of the resolved
`target` is returned alongside. -/
def resolveEntry (fw_spec : Dict) (label : String) (entry : PyVal) :
    Except PyErr (PyVal × TProv) :=
  match entry with
  | .str s => do
    let v ← match dlookup fw_spec s with
      | some v => pure v
      | Option.none => Except.error (.keyError s)
    let items ← pyIter v
    let wrapped ← items.mapM (fun it => do
      let h ← pyIn "source" it
      pure (if h then it else PyVal.dict [("source", it)]))
    pure (.list wrapped, .other)
  | v => do
    let step := fun (acc : Dict × TProv) (key : String) => do
      let h ← pyIn key v
      if h then do
        let item ← pyGet v key
        let r ← resolveField fw_spec item
        let prov := if key = "target" then targProvOf fw_spec label item else acc.2
        pure (dset acc.1 key r, prov)
      else pure acc
    let (d, p) ← (["binding", "source", "target"] : List String).foldlM step
      (([] : Dict), TProv.other)
    pure (.dict d, p)

/-- Resolution of a list of labels (the loop of lines 95-125); a label
absent from the command specification raises KeyError. -/
def resolveLabels (cmd_spec fw_spec : Dict) (labels : List String) :
    Except PyErr (List (PyVal × TProv)) :=
  labels.mapM (fun label => do
    let entry ← match dlookup cmd_spec label with
      | some v => pure v
      | Option.none => Except.error (.keyError label)
    resolveEntry fw_spec label entry)

/-- One entry of a machine-specific command prefix list (lines 186-218).
A dictionary must carry an `eval` key; its expression is evaluated through
the hook (abstracting Python `eval` in the worker context), the result
decoded when it is a byte string (`decode` raises AttributeError on
non-bytes, which the code catches and ignores) and then whitespace-split
when it is text — anything else is a fatal ValueError.  A literal string is
whitespace-split.  Any other entry shape is a fatal ValueError. -/
def processPfxEntry (evalHook : PyVal → PyVal) (p : PyVal) :
    Except PyErr (List String) :=
  match p with
  | .dict d =>
    match dlookup d "eval" with
    | some e =>
      let ev := evalHook e
      let dec := match ev with
        | .bytes b => PyVal.str b
        | v => v
      match dec with
      | .str s => .ok (pySplit s)
      | _ => .error (.valueError "prefix evaluation output not accepted")
    | Option.none => .error (.valueError "prefix formatting not accepted")
  | .str s => .ok (pySplit s)
  | _ => .error (.valueError "prefix type not accepted")

/-- The prefix loop of the environment expander (lines 185-218): process
each entry in declared order and concatenate the token groups. -/
def processPfxList (evalHook : PyVal → PyVal) :
    List PyVal → Except PyErr (List String)
  | [] => .ok []
  | p :: rest => do
    let a ← processPfxEntry evalHook p
    let b ← processPfxList evalHook rest
    pure (a ++ b)

/-- Application of a profile's `prefix` entry to the command (lines 180-221):
a non-list entry is wrapped in a singleton list, the processed tokens are
prepended to the existing command. -/
def applyCmdPfx (evalHook : PyVal → PyVal) (pfxVal : PyVal)
    (command : List PyVal) : Except PyErr (List PyVal) := do
  let l := match pfxVal with
    | .list xs => xs
    | v => [v]
  let toks ← processPfxList evalHook l
  pure (toks.map PyVal.str ++ command)

/-- Write one in-place target mutation back into the caller's dictionaries,
according to the alias provenance recorded at resolution time and the final
(post-harvest) resolved output entry.  Returns the updated
`(cmd_spec, fw_spec)` pair. -/
def writebackOne (cs fs : Dict) (prov : TProv) (outFinal : PyVal) :
    Dict × Dict :=
  match prov, outFinal with
  | .cmdT l, .dict d =>
    (match dlookup d "target", dlookup cs l with
     | some t, some (.dict ld) => (dset cs l (.dict (dset ld "target" t)), fs)
     | _, _ => (cs, fs))
  | .specWhole k, .dict d =>
    (match dlookup d "target" with
     | some t => (cs, dset fs k t)
     | _ => (cs, fs))
  | .specHead k, .dict d =>
    (match dlookup d "target", dlookup fs k with
     | some t, some (.list (_ :: rest)) => (cs, dset fs k (.list (t :: rest)))
     | _, _ => (cs, fs))
  | _, _ => (cs, fs)

/-- Fold `writebackOne` over the resolved outputs (provenances paired with
final entries). -/
def writebackAll (cs fs : Dict) : List (TProv × PyVal) → Dict × Dict
  | [] => (cs, fs)
  | (p, o) :: rest =>
    let (cs', fs') := writebackOne cs fs p o
    writebackAll cs' fs' rest

/-- `CommandLineTask.run_task` (lines 78-249) for an invocation that does
not declare an environment profile (`env` absent), so that the
worker-specific `exec`/prefix block (lines 152-227) is skipped.  Inputs and
outputs are resolved from the command specification against the workflow
spec, the command value is taken from `cmd_spec['command']` (a bare string
is wrapped in a singleton list; a non-list then fails the assertion, and
`Popen` rejects non-string elements), `command_line_tool` is run, and the
harvested list is propagated through `emitAction`.

Because the embedding is value-based while Python mutates through aliases,
the result carries, besides the action, the final contents of `cmd_spec`
and `fw_spec`: the in-place extension of the `command` list (the argument
vector is the same object when the command was given as a list) and the
in-place rewrites of each output's `target` dictionary are written back
through the recorded provenances.  Distinct labels/keys are assumed not to
alias one another's objects (true of any specification parsed from
JSON/YAML). -/
def run_task_noenv (os : OSEnv) (cmd_spec fw_spec : Dict)
    (ilabels olabels : List String) (chunk : Option Int) :
    Except PyErr (FWAction × Dict × Dict) := do
  let ins ← resolveLabels cmd_spec fw_spec ilabels
  let outs ← resolveLabels cmd_spec fw_spec olabels
  let inputs := ins.map Prod.fst
  let outputs := outs.map Prod.fst
  let cmdVal ← match dlookup cmd_spec "command" with
    | some v => pure v
    | Option.none => Except.error (.keyError "command")
  let (command, wasList) ← match cmdVal with
    | .str s => pure ([PyVal.str s], false)
    | .list xs => pure (xs, true)
    | _ => Except.error (.assertionError "command must be a list")
  match command_line_tool os command (some inputs) (some outputs) with
  | (_, _, .error e) => Except.error e
  | (st, _, .ok (outlist, outsFinal)) =>
    let act ← emitAction olabels outlist chunk
    let cmd_spec1 := if wasList
      then dset cmd_spec "command" (.list st.arglist)
      else cmd_spec
    let (cmd_spec2, fw_spec2) :=
      writebackAll cmd_spec1 fw_spec ((outs.map Prod.snd).zip outsFinal)
    pure (act, cmd_spec2, fw_spec2)

/-- Concrete command specification for closed examples: command `echo`, one
data input labelled `i`, one data-target output labelled `o`. -/
def csEx : Dict :=
  [("command", .list [.str "echo"]),
   ("i", .dict [("source", .dict [("type", .str "data"), ("value", .str "x")])]),
   ("o", .dict [("target", .dict [("type", .str "data")])])]

/-- Variant of `csEx` whose output target is resolved from the workflow spec
by name (`target: "t"`). -/
def csExIndirect : Dict :=
  [("command", .list [.str "echo"]),
   ("o", .dict [("target", .str "t")])]

/-- Workflow spec for `csExIndirect`: the key `t` holds the target record. -/
def fsExIndirect : Dict :=
  [("t", .dict [("type", .str "data")])]

/-- A concrete operating-system oracle for closed examples: identity path
normalization, no directories, exit status 0, standard output text
"hello" with a trailing newline. -/
def osEcho : OSEnv :=
  { abspath := id, isdir := fun _ => false, uuid := fun n => "u" ++ toString n,
    returncode := 0, stdoutData := "hello\n", stderrData := "err" }

/-! Helper lemmas for reducing the `Except` monad in proofs. -/

@[simp] theorem okBind {ε α β : Type} (a : α) (f : α → Except ε β) :
    (Except.ok a : Except ε α) >>= f = f a := rfl

@[simp] theorem errBind {ε α β : Type} (e : ε) (f : α → Except ε β) :
    (Except.error e : Except ε α) >>= f = Except.error e := rfl

@[simp] theorem purePy {ε α : Type} (a : α) :
    (pure a : Except ε α) = Except.ok a := rfl

@[simp] theorem isNoneV_str (s : String) : isNoneV (.str s) = false := rfl

@[simp] theorem isNoneV_dict (d : Dict) : isNoneV (.dict d) = false := rfl

@[simp] theorem isNoneV_int (n : Int) : isNoneV (.int n) = false := rfl

/-- Looking a key up after an assignment. -/
theorem dlookup_dset (d : Dict) (k k' : String) (v : PyVal) :
    dlookup (dset d k v) k' = if k' = k then some v else dlookup d k' := by
  induction d with
  | nil =>
    by_cases h : k = k'
    · simp [dset, dlookup, h]
    · simp [dset, dlookup, h, Ne.symm h]
  | cons hd tl ih =>
    obtain ⟨a, w⟩ := hd
    by_cases h1 : a = k
    · subst h1
      by_cases h2 : a = k'
      · simp [dset, dlookup, h2]
      · simp [dset, dlookup, h2, Ne.symm h2]
    · by_cases h2 : a = k'
      · subst h2
        simp [dset, dlookup, h1, Ne.symm h1]
      · simp [dset, dlookup, h1, h2, ih]

/-- The joined path is never empty. -/
theorem pyJoin_length_pos (a b : String) : 0 < (pyJoin a b).length := by
  unfold pyJoin
  split
  · next h =>
    have ha : a ≠ "" := by
      intro he; subst he; simp at h
    have : 0 < a.length := by
      rcases a with ⟨l⟩
      cases l with
      | nil => simp at ha
      | cons c cs => simp [String.length]
    rw [String.length_append]
    omega
  · rw [String.length_append, String.length_append]
    have h1 : "/".length = 1 := rfl
    omega

/-- Joining distinct fresh names inside the same directory yields distinct
paths. -/
theorem pyJoin_right_injective (p u1 u2 : String) (h : u1 ≠ u2) :
    pyJoin p u1 ≠ pyJoin p u2 := by
  intro he
  apply h
  unfold pyJoin at he
  have hd : ∀ x y : String, x ++ y = String.mk (x.data ++ y.data) := by
    intro x y; rfl
  split at he
  · rw [hd, hd] at he
    have hdd := congrArg String.data he
    simp at hdd
    rcases u1 with ⟨l1⟩; rcases u2 with ⟨l2⟩
    simp_all
  · rw [hd, hd] at he
    have hdd := congrArg String.data he
    simp at hdd
    rcases u1 with ⟨l1⟩; rcases u2 with ⟨l2⟩
    simp_all

/-- C5: for a structured IOEntry, each of the fields `binding`, `source`,
`target` that is present is resolved thus: a string value is replaced by the
workflow spec's value at that key — the first element when that value is a
(non-empty) list, the rest discarded (KeyError on a missing key, IndexError
on an empty list); a dict value is used verbatim; any other type raises
ValueError.  The entry resolver applies exactly this field resolution to the
three fields in order. -/
theorem resolveField_resolution :
    (∀ fw s, dlookup fw s = Option.none →
        resolveField fw (.str s) = .error (.keyError s)) ∧
    (∀ fw s v, dlookup fw s = some v → (∀ xs, v ≠ .list xs) →
        resolveField fw (.str s) = .ok v) ∧
    (∀ fw s x xs, dlookup fw s = some (.list (x :: xs)) →
        resolveField fw (.str s) = .ok x) ∧
    (∀ fw s, dlookup fw s = some (.list []) →
        resolveField fw (.str s) = .error .indexError) ∧
    (∀ fw d, resolveField fw (.dict d) = .ok (.dict d)) ∧
    (∀ fw n, resolveField fw (.int n) =
        .error (.valueError "field is neither str nor dict")) ∧
    (∀ fw, resolveField fw .none =
        .error (.valueError "field is neither str nor dict")) ∧
    (∀ fw xs, resolveField fw (.list xs) =
        .error (.valueError "field is neither str nor dict")) ∧
    (∀ fw label bi so ta,
        resolveEntry fw label (.dict [("binding", bi), ("source", so), ("target", ta)]) = do
          let b ← resolveField fw bi
          let s ← resolveField fw so
          let t ← resolveField fw ta
          pure (PyVal.dict [("binding", b), ("source", s), ("target", t)],
                targProvOf fw label ta)) := by
  refine ⟨?_, ?_, ?_, ?_, ?_, ?_, ?_, ?_, ?_⟩
  · intro fw s h; simp [resolveField, h]
  · intro fw s v h hv
    cases v with
    | list xs => exact absurd rfl (hv xs)
    | _ => simp [resolveField, h]
  · intro fw s x xs h; simp [resolveField, h]
  · intro fw s h; simp [resolveField, h]
  · intro fw d; simp [resolveField]
  · intro fw n; simp [resolveField]
  · intro fw; simp [resolveField]
  · intro fw xs; simp [resolveField]
  · intro fw label bi so ta
    cases hb : resolveField fw bi with
    | error e => simp [resolveEntry, List.foldlM, pyIn, pyGet, dlookup, hb]
    | ok b =>
      cases hs : resolveField fw so with
      | error e => simp [resolveEntry, List.foldlM, pyIn, pyGet, dlookup, dset, hb, hs]
      | ok s =>
        cases ht : resolveField fw ta with
        | error e =>
          simp [resolveEntry, List.foldlM, pyIn, pyGet, dlookup, dset, hb, hs, ht]
        | ok t => simp [resolveEntry, List.foldlM, pyIn, pyGet, dlookup, dset, hb, hs, ht]

/-- Closed instantiation of the C5 theorem. -/
theorem resolveField_resolution_witness :
    resolveField [("k", .list [.int 1, .int 2])] (.str "k") = .ok (.int 1) ∧
    resolveField [("k", .str "w")] (.str "k") = .ok (.str "w") ∧
    resolveField [] (.dict [("type", .str "data")]) = .ok (.dict [("type", .str "data")]) ∧
    resolveField [] (.int 7) = .error (.valueError "field is neither str nor dict") := by
  refine ⟨?_, ?_, ?_, ?_⟩
  · exact resolveField_resolution.2.2.1 [("k", .list [.int 1, .int 2])] "k"
      (.int 1) [.int 2] (by simp [dlookup])
  · exact resolveField_resolution.2.1 [("k", .str "w")] "k" (.str "w")
      (by simp [dlookup]) (by intro xs h; cases h)
  · exact resolveField_resolution.2.2.2.2.1 [] [("type", .str "data")]
  · exact resolveField_resolution.2.2.2.2.2.1 [] 7

/-- C6: each entry of a profile's command prefix list is processed in
declared order — a literal string is whitespace-split; an `eval` record is
evaluated, decoded to text when the result is a byte string, then
whitespace-split; any other entry shape, or an evaluation result that is not
text after decoding, raises an error — and the concatenated token groups are
prepended to the command, as in the `mpirun`/`-n 4` example. -/
theorem env_prefix_expansion (hook : PyVal → PyVal) :
    (∀ s, processPfxEntry hook (.str s) = .ok (pySplit s)) ∧
    (∀ d e b, dlookup d "eval" = some e → hook e = .bytes b →
        processPfxEntry hook (.dict d) = .ok (pySplit b)) ∧
    (∀ d e b, dlookup d "eval" = some e → hook e = .str b →
        processPfxEntry hook (.dict d) = .ok (pySplit b)) ∧
    (∀ d e, dlookup d "eval" = some e → (∀ s, hook e ≠ .str s) →
        (∀ s, hook e ≠ .bytes s) →
        processPfxEntry hook (.dict d) =
          .error (.valueError "prefix evaluation output not accepted")) ∧
    (∀ d, dlookup d "eval" = Option.none →
        processPfxEntry hook (.dict d) =
          .error (.valueError "prefix formatting not accepted")) ∧
    (∀ n, processPfxEntry hook (.int n) =
        .error (.valueError "prefix type not accepted")) ∧
    (processPfxEntry hook .none = .error (.valueError "prefix type not accepted")) ∧
    (∀ xs, processPfxEntry hook (.list xs) =
        .error (.valueError "prefix type not accepted")) ∧
    (∀ p rest, processPfxList hook (p :: rest) = do
        let a ← processPfxEntry hook p
        let b ← processPfxList hook rest
        pure (a ++ b)) ∧
    (∀ e rest, hook e = .str "-n 4" →
        applyCmdPfx hook (.list [.str "mpirun", .dict [("eval", e)]])
            (.str "foo" :: rest) =
          .ok (.str "mpirun" :: .str "-n" :: .str "4" :: .str "foo" :: rest)) := by
  refine ⟨?_, ?_, ?_, ?_, ?_, ?_, ?_, ?_, ?_, ?_⟩
  · intro s; simp [processPfxEntry]
  · intro d e b h hb; simp [processPfxEntry, h, hb]
  · intro d e b h hb; simp [processPfxEntry, h, hb]
  · intro d e h hs hb
    cases hv : hook e with
    | str s => exact absurd hv (hs s)
    | bytes s => exact absurd hv (hb s)
    | none => simp [processPfxEntry, h, hv]
    | int n => simp [processPfxEntry, h, hv]
    | list xs => simp [processPfxEntry, h, hv]
    | dict d2 => simp [processPfxEntry, h, hv]
  · intro d h; simp [processPfxEntry, h]
  · intro n; simp [processPfxEntry]
  · simp [processPfxEntry]
  · intro xs; simp [processPfxEntry]
  · intro p rest; rfl
  · intro e rest h
    simp [applyCmdPfx, processPfxList, processPfxEntry, dlookup, h, pySplit,
      pySplitAux, pyWs]

/-- Closed instantiation of the C6 theorem, with a concrete evaluation hook
returning a byte string. -/
theorem env_prefix_expansion_witness :
    processPfxEntry (fun _ => .bytes " -n  4") (.dict [("eval", .str "expr")]) =
      .ok ["-n", "4"] ∧
    applyCmdPfx (fun _ => .str "-n 4")
        (.list [.str "mpirun", .dict [("eval", .str "expr")]]) [.str "foo"] =
      .ok [.str "mpirun", .str "-n", .str "4", .str "foo"] := by
  constructor
  · have h := (env_prefix_expansion (fun _ => .bytes " -n  4")).2.1
      [("eval", .str "expr")] (.str "expr") " -n  4" (by simp [dlookup]) rfl
    simpa [pySplit, pySplitAux, pyWs] using h
  · exact (env_prefix_expansion (fun _ => .str "-n 4")).2.2.2.2.2.2.2.2.2
      (.str "expr") [] rfl

/-- C7: for an argument-token input (no `target` field), the builder renders
the binding prefix, then the separator, then the source value's text,
concatenated with nothing in between, and appends the result as exactly one
argument-vector element exactly when the rendered text is non-empty; for
command `echo` and one data input `hello` with no binding, the built
argument vector is `echo hello`. -/
theorem argument_token_building :
    (∀ d bd p s, dlookup d "binding" = some (.dict bd) →
        dlookup bd "prefix" = some (.str p) →
        dlookup bd "separator" = some (.str s) →
        set_binding (.dict d) = .ok (p ++ s)) ∧
    (∀ d, dlookup d "binding" = Option.none → set_binding (.dict d) = .ok "") ∧
    (∀ st d b sd v, set_binding (.dict d) = .ok b →
        dlookup d "target" = Option.none →
        dlookup d "source" = some (.dict sd) →
        dlookup sd "type" = some (.str "data") →
        dlookup sd "value" = some v → isNoneV v = false →
        processInputArg st (.dict d) =
          .ok (if (b ++ pyStr v).length > 0
               then { st with arglist := st.arglist ++ [.str (b ++ pyStr v)] }
               else st)) ∧
    (∀ st d b sd p, set_binding (.dict d) = .ok b →
        dlookup d "target" = Option.none →
        dlookup d "source" = some (.dict sd) →
        dlookup sd "type" = some (.str "path") →
        dlookup sd "value" = some (.str p) →
        processInputArg st (.dict d) =
          .ok (if (b ++ p).length > 0
               then { st with arglist := st.arglist ++ [.str (b ++ p)] }
               else st)) ∧
    ((command_line_tool osEcho [.str "echo"]
        (some [.dict [("source",
          .dict [("type", .str "data"), ("value", .str "hello")])]])
        Option.none).1.arglist = [.str "echo", .str "hello"]) := by
  refine ⟨?_, ?_, ?_, ?_, ?_⟩
  · intro d bd p s h1 h2 h3
    simp [set_binding, pyIn, pyGet, h1, h2, h3]
  · intro d h; simp [set_binding, pyIn, h]
  · intro st d b sd v hb ht hs hty hv hvn
    simp [processInputArg, hb, pyIn, pyGet, ht, hs, hty, hv, hvn, isStrEq]
  · intro st d b sd p hb ht hs hty hv
    simp [processInputArg, hb, pyIn, pyGet, ht, hs, hty, hv, isStrEq]
  · rfl

/-- Closed instantiation of the C7 theorem. -/
theorem argument_token_building_witness :
    processInputArg { arglist := [.str "echo"] }
        (.dict [("source", .dict [("type", .str "data"), ("value", .str "hello")])]) =
      .ok { arglist := [.str "echo", .str "hello"] } := by
  have h := argument_token_building.2.2.1 { arglist := [.str "echo"] }
    [("source", .dict [("type", .str "data"), ("value", .str "hello")])] ""
    [("type", .str "data"), ("value", .str "hello")] (.str "hello")
    rfl rfl rfl rfl rfl rfl
  exact h.trans rfl

/-- C10: an input that declares a (stdin) target and whose binding renders
non-empty text still appends that rendered text to the argument vector as a
standalone token, while the source value itself is routed to standard input
(piped inline data, or an opened file) and contributes nothing to the
token. -/
theorem stdin_binding_not_suppressed :
    (∀ st d b td sd v, set_binding (.dict d) = .ok b →
        dlookup d "target" = some (.dict td) →
        dlookup td "type" = some (.str "stdin") →
        dlookup d "source" = some (.dict sd) →
        dlookup sd "type" = some (.str "data") →
        dlookup sd "value" = some v → isNoneV v = false →
        processInputArg st (.dict d) =
          .ok (if b.length > 0
               then { st with
                      stdinDest := .pipe
                      stdininp := some (pyStr v)
                      arglist := st.arglist ++ [.str b] }
               else { st with stdinDest := .pipe, stdininp := some (pyStr v) })) ∧
    (∀ st d b td sd p, set_binding (.dict d) = .ok b →
        dlookup d "target" = some (.dict td) →
        dlookup td "type" = some (.str "stdin") →
        dlookup d "source" = some (.dict sd) →
        dlookup sd "type" = some (.str "path") →
        dlookup sd "value" = some (.str p) →
        processInputArg st (.dict d) =
          .ok (if b.length > 0
               then { st with
                      stdinDest := .file p
                      arglist := st.arglist ++ [.str b] }
               else { st with stdinDest := .file p })) := by
  constructor
  · intro st d b td sd v hb ht htty hs hty hv hvn
    simp [processInputArg, hb, pyIn, pyGet, ht, htty, hs, hty, hv, hvn,
      isStrEq]
  · intro st d b td sd p hb ht htty hs hty hv
    simp [processInputArg, hb, pyIn, pyGet, ht, htty, hs, hty, hv,
      isStrEq]

/-- Closed instantiation of the C10 theorem: a `-i` binding on a
stdin-redirected data input still lands in the argument vector. -/
theorem stdin_binding_not_suppressed_witness :
    processInputArg { arglist := [.str "cat"] }
        (.dict [("binding", .dict [("prefix", .str "-i")]),
                ("source", .dict [("type", .str "data"), ("value", .str "42")]),
                ("target", .dict [("type", .str "stdin")])]) =
      .ok { arglist := [.str "cat", .str "-i"], stdinDest := .pipe,
            stdininp := some "42" } := by
  have h := stdin_binding_not_suppressed.1 { arglist := [.str "cat"] }
    [("binding", .dict [("prefix", .str "-i")]),
     ("source", .dict [("type", .str "data"), ("value", .str "42")]),
     ("target", .dict [("type", .str "stdin")])] "-i"
    [("type", .str "stdin")]
    [("type", .str "data"), ("value", .str "42")] (.str "42")
    rfl rfl rfl rfl rfl rfl rfl
  exact h.trans rfl

/-- C9: a `data` target pipes standard output in memory during execution,
and after a successful exit the harvested record's value is the captured
standard-output text stripped of surrounding whitespace (an AttributeError
is raised when standard output was not captured); running `echo` with
standard output text "hello" plus newline yields the record value
`hello`. -/
theorem data_target_capture :
    (∀ os st d b td, set_binding (.dict d) = .ok b →
        dlookup d "target" = some (.dict td) →
        dlookup td "type" = some (.str "data") →
        processOutputArg os st (.dict d) =
          .ok (if b.length > 0
               then { st with
                      stdoutDest := .pipe
                      arglist := st.arglist ++ [.str b] }
               else { st with stdoutDest := .pipe }, .dict d)) ∧
    (∀ s d td, dlookup d "source" = Option.none →
        dlookup d "target" = some (.dict td) →
        dlookup td "type" = some (.str "data") →
        harvestOne (some s) (.dict d) =
          ([], .ok (.dict (dset td "value" (.str (pyStrip s))),
                    .dict (dset d "target"
                      (.dict (dset td "value" (.str (pyStrip s)))))))) ∧
    (∀ d td, dlookup d "source" = Option.none →
        dlookup d "target" = some (.dict td) →
        dlookup td "type" = some (.str "data") →
        harvestOne Option.none (.dict d) = ([], .error .attributeError)) ∧
    (command_line_tool osEcho [.str "echo", .str "hello"] Option.none
        (some [.dict [("source", .dict [("type", .str "stdout")]),
                      ("target", .dict [("type", .str "data")])]]) =
      ({ arglist := [.str "echo", .str "hello"], stdoutDest := .pipe },
       [],
       .ok ([.dict [("type", .str "data"), ("value", .str "hello")]],
            [.dict [("source", .dict [("type", .str "stdout")]),
                    ("target", .dict [("type", .str "data"),
                                      ("value", .str "hello")])]]))) := by
  refine ⟨?_, ?_, ?_, ?_⟩
  · intro os st d b td hb ht htty
    simp [processOutputArg, hb, pyIn, pyGet, ht, htty, isStrEq]
  · intro s d td hs ht htty
    simp [harvestOne, pyIn, pyGet, hs, ht, htty, isStrEq]
  · intro d td hs ht htty
    simp [harvestOne, pyIn, pyGet, hs, ht, htty, isStrEq]
  · rfl

/-- Closed instantiation of the C9 theorem. -/
theorem data_target_capture_witness :
    harvestOne (some " out \n") (.dict [("target", .dict [("type", .str "data")])]) =
      ([], .ok (.dict [("type", .str "data"), ("value", .str "out")],
                .dict [("target", .dict [("type", .str "data"),
                                         ("value", .str "out")])])) := by
  have h := data_target_capture.2.1 " out \n"
    [("target", .dict [("type", .str "data")])] [("type", .str "data")]
    rfl rfl rfl
  exact h.trans rfl

/-- C8: a `path` target requires a non-empty string value (assertion failure
on the empty string, TypeError on a non-string); the value is normalized to
an absolute path, and when that names an existing directory a freshly
generated uuid name is joined inside it and written back as the effective
target value, so harvested records of invocations drawing distinct fresh
names are distinct. -/
theorem path_target_unique_name :
    (∀ os st d b td, set_binding (.dict d) = .ok b →
        dlookup d "target" = some (.dict td) →
        dlookup td "type" = some (.str "path") →
        dlookup td "value" = some (.str "") →
        processOutputArg os st (.dict d) =
          .error (.assertionError "path target value is empty")) ∧
    (∀ os st d b td n, set_binding (.dict d) = .ok b →
        dlookup d "target" = some (.dict td) →
        dlookup td "type" = some (.str "path") →
        dlookup td "value" = some (.int n) →
        processOutputArg os st (.dict d) = .error .typeError) ∧
    (∀ os st d b td v, set_binding (.dict d) = .ok b →
        dlookup d "source" = Option.none →
        dlookup d "target" = some (.dict td) →
        dlookup td "type" = some (.str "path") →
        dlookup td "value" = some (.str v) → v ≠ "" →
        os.isdir (os.abspath v) = true →
        processOutputArg os st (.dict d) =
          .ok ({ st with
                 uuidCount := st.uuidCount + 1
                 arglist := st.arglist ++
                   [.str (b ++ pyJoin (os.abspath v) (os.uuid st.uuidCount))] },
               .dict (dset d "target" (.dict (dset td "value"
                 (.str (pyJoin (os.abspath v) (os.uuid st.uuidCount)))))))) ∧
    (∀ p u1 u2, u1 ≠ u2 → pyJoin p u1 ≠ pyJoin p u2) ∧
    (∀ r0 d td, dlookup d "source" = Option.none →
        dlookup d "target" = some (.dict td) →
        dlookup td "type" = some (.str "path") →
        harvestOne r0 (.dict d) = ([], .ok (.dict td, .dict d))) := by
  refine ⟨?_, ?_, ?_, ?_, ?_⟩
  · intro os st d b td hb ht htty htv
    simp [processOutputArg, hb, pyIn, pyGet, pyLen, ht, htty, htv, isStrEq]
  · intro os st d b td n hb ht htty htv
    simp [processOutputArg, hb, pyIn, pyGet, pyLen, ht, htty, htv, isStrEq]
  · intro os st d b td v hb hs ht htty htv hv hdir
    have hlen : ¬ v.length = 0 := by
      intro h0
      apply hv
      rcases v with ⟨l⟩
      cases l with
      | nil => rfl
      | cons c cs => simp [String.length] at h0
    have hjoin := pyJoin_length_pos (os.abspath v) (os.uuid st.uuidCount)
    simp [processOutputArg, hb, pyIn, pyGet, pyLen, ht, htty, htv, isStrEq,
      hlen, hdir, dlookup_dset, hs, String.length_append]
    omega
  · exact pyJoin_right_injective
  · intro r0 d td hs ht htty
    simp [harvestOne, pyIn, pyGet, hs, ht, htty, isStrEq]

/-- Closed instantiation of the C8 theorem: a target naming an existing
directory receives a joined fresh name, and distinct fresh names give
distinct harvested values. -/
theorem path_target_unique_name_witness :
    (∃ st', processOutputArg
        { abspath := id, isdir := fun _ => true, uuid := fun _ => "u7",
          returncode := 0, stdoutData := "", stderrData := "" }
        { arglist := [.str "c"] }
        (.dict [("target", .dict [("type", .str "path"),
                                  ("value", .str "/existing/directory")])]) =
      .ok (st', .dict [("target", .dict [("type", .str "path"),
                        ("value", .str "/existing/directory/u7")])])) ∧
    pyJoin "/existing/directory" "u7" ≠ pyJoin "/existing/directory" "u8" := by
  constructor
  · refine ⟨{ arglist := [.str "c", .str "/existing/directory/u7"],
              uuidCount := 1 }, ?_⟩
    have h := path_target_unique_name.2.2.1
      { abspath := id, isdir := fun _ => true, uuid := fun _ => "u7",
        returncode := 0, stdoutData := "", stderrData := "" }
      { arglist := [.str "c"] }
      [("target", .dict [("type", .str "path"),
                         ("value", .str "/existing/directory")])] ""
      [("type", .str "path"), ("value", .str "/existing/directory")]
      "/existing/directory"
      rfl rfl rfl rfl rfl (by decide) rfl
    exact h.trans rfl
  · exact path_target_unique_name.2.2.2.1 "/existing/directory" "u7" "u8"
      (by decide)

/-- C1: when the child process exits with a non-zero status,
`command_line_tool` raises a RuntimeError carrying the captured
standard-error content; the harvest loop is never entered, so no record list
is produced and no file copies occur. -/
theorem nonzero_exit_no_harvest (os : OSEnv) (command : List PyVal)
    (inputs outputs : Option (List PyVal)) (st : CLState) (outs : List PyVal)
    (hpre : cltPre os command inputs outputs = (st, .ok outs))
    (hargv : argvOk st.arglist = true)
    (hrc : os.returncode ≠ 0) :
    command_line_tool os command inputs outputs =
      (st, [], .error (.runtimeError (capturedOf st.stderrDest os.stderrData))) := by
  unfold command_line_tool
  rw [hpre]
  simp [hargv, hrc]

/-- Closed instantiation of the C1 theorem: exit status 2 fails with the
captured standard-error text and performs no copies. -/
theorem nonzero_exit_no_harvest_witness :
    command_line_tool { osEcho with returncode := 2, stderrData := "boom" }
      [.str "c"] Option.none
      (some [.dict [("target", .dict [("type", .str "data")])]]) =
      ({ arglist := [.str "c"], stdoutDest := .pipe }, [],
       .error (.runtimeError (some "boom"))) := by
  have h := nonzero_exit_no_harvest
    { osEcho with returncode := 2, stderrData := "boom" }
    [.str "c"] Option.none
    (some [.dict [("target", .dict [("type", .str "data")])]])
    { arglist := [.str "c"], stdoutDest := .pipe }
    [.dict [("target", .dict [("type", .str "data")])]]
    rfl rfl (by decide)
  exact h.trans rfl

/-- With no declared outputs (`None` or the empty list) the pre-execution
phase yields an empty output list, the harvest is empty, and no copies are
logged, whatever the inputs did. -/
theorem clt_no_outputs (os : OSEnv) (command : List PyVal)
    (inputs outputs : Option (List PyVal))
    (h : outputs = Option.none ∨ outputs = some []) :
    (command_line_tool os command inputs outputs).2.1 = [] ∧
    (∀ rcds fouts,
      (command_line_tool os command inputs outputs).2.2 = .ok (rcds, fouts) →
      rcds = [] ∧ fouts = []) := by
  rcases hip : inputPhase command inputs with ⟨st1, e1⟩
  have hpre : cltPre os command inputs outputs =
      (match e1 with
       | some e => (st1, Except.error e)
       | Option.none => (st1, Except.ok ([] : List PyVal))) := by
    rcases h with h | h <;> subst h <;> cases e1 <;>
      simp [cltPre, hip, processOutputs]
  cases e1 with
  | some e =>
    unfold command_line_tool
    rw [hpre]
    simp
  | none =>
    unfold command_line_tool
    rw [hpre]
    by_cases ha : argvOk st1.arglist
    · by_cases hrc : os.returncode = 0
      · simp [ha, hrc, harvestAll]
      · simp [ha, hrc]
    · simp [ha]

/-- C3: with no declared outputs (absent or the empty list),
`command_line_tool` performs no file copy and, when it returns, returns the
empty record list, whatever the inputs; and a `run_task` invocation with no
output labels that returns normally carries no state update — neither a
replacement nor an append operation. -/
theorem no_outputs_noop (os : OSEnv) (command : List PyVal)
    (inputs outputs : Option (List PyVal))
    (h : outputs = Option.none ∨ outputs = some []) :
    (command_line_tool os command inputs outputs).2.1 = [] ∧
    (∀ rcds fouts,
      (command_line_tool os command inputs outputs).2.2 = .ok (rcds, fouts) →
      rcds = []) ∧
    (∀ cmd_spec fw_spec ilabels chunk act cs fs,
        run_task_noenv os cmd_spec fw_spec ilabels [] chunk = .ok (act, cs, fs) →
        act.update_spec = [] ∧ act.mod_spec = []) := by
  refine ⟨(clt_no_outputs os command inputs outputs h).1,
          fun rcds fouts hr => ((clt_no_outputs os command inputs outputs h).2
            rcds fouts hr).1, ?_⟩
  intro cmd_spec fw_spec ilabels chunk act cs fs hrun
  simp only [run_task_noenv] at hrun
  cases hins : resolveLabels cmd_spec fw_spec ilabels with
  | error e => rw [hins] at hrun; simp at hrun
  | ok ins =>
    rw [hins] at hrun
    simp only [okBind] at hrun
    rw [show resolveLabels cmd_spec fw_spec [] = Except.ok [] from rfl] at hrun
    simp only [okBind, List.map_nil] at hrun
    cases hcv : dlookup cmd_spec "command" with
    | none => rw [hcv] at hrun; simp at hrun
    | some v =>
      rw [hcv] at hrun
      cases v with
      | str s =>
        simp only [okBind, purePy] at hrun
        rcases hclt : command_line_tool os [PyVal.str s]
            (some (ins.map Prod.fst)) (some []) with ⟨stx, csx, rx⟩
        rw [hclt] at hrun
        cases rx with
        | error e => simp at hrun
        | ok p =>
          obtain ⟨outlist, outsF⟩ := p
          have hempty : outlist = [] := by
            have h2 := (clt_no_outputs os [PyVal.str s]
              (some (ins.map Prod.fst)) (some []) (Or.inr rfl)).2 outlist outsF
            rw [hclt] at h2
            exact (h2 rfl).1
          subst hempty
          dsimp only at hrun
          rw [show emitAction [] ([] : List PyVal) chunk = Except.ok {} from rfl]
            at hrun
          simp only [okBind, purePy] at hrun
          have h1 : ({} : FWAction) = act :=
            congrArg Prod.fst (Except.ok.inj hrun)
          subst h1
          exact ⟨rfl, rfl⟩
      | list xs =>
        simp only [okBind, purePy] at hrun
        rcases hclt : command_line_tool os xs
            (some (ins.map Prod.fst)) (some []) with ⟨stx, csx, rx⟩
        rw [hclt] at hrun
        cases rx with
        | error e => simp at hrun
        | ok p =>
          obtain ⟨outlist, outsF⟩ := p
          have hempty : outlist = [] := by
            have h2 := (clt_no_outputs os xs
              (some (ins.map Prod.fst)) (some []) (Or.inr rfl)).2 outlist outsF
            rw [hclt] at h2
            exact (h2 rfl).1
          subst hempty
          dsimp only at hrun
          rw [show emitAction [] ([] : List PyVal) chunk = Except.ok {} from rfl]
            at hrun
          simp only [okBind, purePy] at hrun
          have h1 : ({} : FWAction) = act :=
            congrArg Prod.fst (Except.ok.inj hrun)
          subst h1
          exact ⟨rfl, rfl⟩
      | none => simp at hrun
      | int n => simp at hrun
      | bytes b => simp at hrun
      | dict d => simp at hrun

/-- Closed instantiation of the C3 theorem. -/
theorem no_outputs_noop_witness :
    (command_line_tool osEcho [.str "c"] Option.none (some [])).2.1 = [] :=
  (no_outputs_noop osEcho [.str "c"] Option.none (some []) (Or.inr rfl)).1

/-- C2 (failing input): with a chunk number set and two output labels, the
propagator iterates each harvested record — a dictionary, which yields its
keys — and pushes the key strings `type` and `value` under each label,
instead of pushing the records themselves. -/
theorem chunk_multi_label_pushes_keys :
    emitAction ["a", "b"]
      [.dict [("type", .str "data"), ("value", .str "x")],
       .dict [("type", .str "data"), ("value", .str "y")]] (some 0) =
      .ok { update_spec := [],
            mod_spec := [.dict [("_push", .dict [("a", .str "type")])],
                         .dict [("_push", .dict [("a", .str "value")])],
                         .dict [("_push", .dict [("b", .str "type")])],
                         .dict [("_push", .dict [("b", .str "value")])]] } ∧
    emitAction ["a"] [.dict [("type", .str "data"), ("value", .str "x")]]
      (some 0) =
      .ok { update_spec := [],
            mod_spec := [.dict [("_push",
              .dict [("a", .dict [("type", .str "data"),
                                  ("value", .str "x")])])]] } := ⟨rfl, rfl⟩

/-- C4 (counterexample): `run_task` does not leave the command
specification unchanged — after a successful invocation on `csEx` the
`command` list inside it has been extended in place with the composed
argument token and the output target has been rewritten with the harvested
value. -/
theorem run_task_mutates_spec :
    (∃ act fs,
      run_task_noenv osEcho csEx [] ["i"] ["o"] Option.none =
        .ok (act,
          [("command", .list [.str "echo", .str "x"]),
           ("i", .dict [("source",
              .dict [("type", .str "data"), ("value", .str "x")])]),
           ("o", .dict [("target",
              .dict [("type", .str "data"), ("value", .str "hello")])])],
          fs)) ∧
    ([("command", PyVal.list [.str "echo", .str "x"]),
      ("i", PyVal.dict [("source",
         .dict [("type", .str "data"), ("value", .str "x")])]),
      ("o", PyVal.dict [("target",
         .dict [("type", .str "data"), ("value", .str "hello")])])] : Dict)
      ≠ csEx := by
  constructor
  · exact ⟨_, _, rfl⟩
  · simp [csEx]

/-- C4 (amended): `run_task` returns the delta, but mutates the structures
it was given in place: the `command` list inside the command specification
is extended with each composed argument token, and the target record of a
harvested output — inside the command specification, or inside the workflow
spec when the target was resolved from it by name — has its `value`
rewritten to the effective harvested value (here the stripped captured
standard output). -/
theorem run_task_writes_back (os : OSEnv) (hrc : os.returncode = 0) :
    run_task_noenv os csEx [] ["i"] ["o"] Option.none =
      .ok ({ update_spec := [("o", .dict [("type", .str "data"),
              ("value", .str (pyStrip os.stdoutData))])] },
           [("command", .list [.str "echo", .str "x"]),
            ("i", .dict [("source",
               .dict [("type", .str "data"), ("value", .str "x")])]),
            ("o", .dict [("target", .dict [("type", .str "data"),
               ("value", .str (pyStrip os.stdoutData))])])],
           []) ∧
    run_task_noenv os csExIndirect fsExIndirect [] ["o"] Option.none =
      .ok ({ update_spec := [("o", .dict [("type", .str "data"),
              ("value", .str (pyStrip os.stdoutData))])] },
           [("command", .list [.str "echo"]),
            ("o", .dict [("target", .str "t")])],
           [("t", .dict [("type", .str "data"),
              ("value", .str (pyStrip os.stdoutData))])]) := by
  obtain ⟨ab, idir, uu, rc, so, se⟩ := os
  have h0 : rc = 0 := hrc
  subst h0
  exact ⟨rfl, rfl⟩

/-- Closed instantiation of the C4 amended theorem. -/
theorem run_task_writes_back_witness :
    run_task_noenv osEcho csEx [] ["i"] ["o"] Option.none =
      .ok ({ update_spec := [("o", .dict [("type", .str "data"),
              ("value", .str "hello")])] },
           [("command", .list [.str "echo", .str "x"]),
            ("i", .dict [("source",
               .dict [("type", .str "data"), ("value", .str "x")])]),
            ("o", .dict [("target", .dict [("type", .str "data"),
               ("value", .str "hello")])])],
           []) := by
  have h := (run_task_writes_back osEcho rfl).1
  exact h.trans rfl
